import Mathlib

/-!
Verification of the sqlnaut VS Code extension (src/src/extension.ts).

JavaScript strings are modelled as `List Char`; JS `undefined` for an
optional value is modelled as `Option.none`; JS truthiness of strings and
numbers (`x || d` picks `d` when `x` is `undefined`, the empty string or
zero) is modelled by explicit helpers.  Stateful pieces (the streaming
apply loop, the finished-promise wiring) are modelled as step functions
folded over explicit event lists.
-/

namespace Sqlnaut

/-- JS strings as lists of characters. -/
abbrev JSStr := List Char

/-- The character `{` (written via its code point). -/
def lbrace : Char := '\x7b'

/-- JS `v || d` for string-valued configuration reads: `undefined` and the
empty string are falsy and fall back to the default. -/
def jsOrStr (v : Option JSStr) (d : JSStr) : JSStr :=
  match v with
  | none => d
  | some s => if s = [] then d else s

/-- JS `v || d` for number-valued configuration reads: `undefined` and `0`
are falsy and fall back to the default. -/
def jsOrNum (v : Option Int) (d : Int) : Int :=
  match v with
  | none => d
  | some n => if n = 0 then d else n

/-- JS truthiness of a possibly-undefined boolean: only `true` is truthy. -/
def jsTruthy (v : Option Bool) : Bool :=
  match v with
  | some b => b
  | none => false

/-- The JS whitespace characters relevant here (space, tab, newline, CR). -/
def jsWhitespace (c : Char) : Bool :=
  c = ' ' || c = '\t' || c = '\n' || c = '\r'

/-- JS `String.prototype.trimStart`. -/
def jsTrimStart (s : JSStr) : JSStr := s.dropWhile jsWhitespace

/-- JS `String.prototype.trimEnd`. -/
def jsTrimEnd (s : JSStr) : JSStr := (s.reverse.dropWhile jsWhitespace).reverse

/-- JS `String.prototype.trim`. -/
def jsTrim (s : JSStr) : JSStr := jsTrimEnd (jsTrimStart s)

/-- `leads pat s` : `pat` is an initial segment of `s` (JS prefix test). -/
def leads : JSStr → JSStr → Bool
  | [], _ => true
  | _ :: _, [] => false
  | a :: ps, b :: ss => a == b && leads ps ss

/-- `occursIn pat s` : `pat` occurs as a contiguous substring of `s`
(JS `String.prototype.includes`). -/
def occursIn (pat : JSStr) : JSStr → Bool
  | [] => pat.isEmpty
  | c :: cs => leads pat (c :: cs) || occursIn pat cs

/-- JS `String.prototype.replace` with a string pattern: replaces only the
FIRST occurrence of `pat` (if any) by `rep`. -/
def replaceFirst (pat rep : JSStr) : JSStr → JSStr
  | [] => if leads pat [] then rep else []
  | c :: cs =>
      if leads pat (c :: cs) then rep ++ (c :: cs).drop pat.length
      else c :: replaceFirst pat rep cs

/-- JS `completion.split("\n")` (always returns at least one piece). -/
def splitNl : JSStr → List JSStr
  | [] => [[]]
  | c :: cs =>
      let r := splitNl cs
      if c = '\n' then [] :: r
      else (c :: r.headD []) :: r.tail

/-- The text after the last newline of a string (the whole string when it
has no newline). -/
def afterLastNl : JSStr → JSStr
  | [] => []
  | c :: cs => if '\n' ∈ cs then afterLastNl cs else if c = '\n' then cs else c :: cs

/-- `[s₁, …, sₙ].join("\n")`. -/
def joinNl : List JSStr → JSStr
  | [] => []
  | [s] => s
  | s :: rest => s ++ '\n' :: joinNl rest

/-! ## Configuration Snapshot (`updateVSConfig`, extension.ts lines 21–35) -/

/-- Host-provided configuration storage: each recognized option is present
(`some`) or absent (`none`, JS `undefined`). -/
structure HostConfig where
  endpoint : Option JSStr
  model : Option JSStr
  messageHeader : Option JSStr
  maxTokensPredicted : Option Int
  promptWindowSize : Option Int
  completionKeys : Option JSStr
  responsePreview : Option Bool
  previewMaxTokens : Option Int
  previewDelay : Option Int
  continueInline : Option Bool
  temperature : Option Int
deriving DecidableEq

/-- The process-wide configuration snapshot rebuilt by `updateVSConfig`.
The two boolean fields keep the raw (possibly `undefined`) read. -/
structure Snapshot where
  apiEndpoint : JSStr
  apiModel : JSStr
  apiMessageHeader : JSStr
  embedModel : JSStr
  numPredict : Int
  promptWindowSize : Int
  completionKeys : JSStr
  responsePreview : Option Bool
  responsePreviewMaxTokens : Int
  responsePreviewDelay : Int
  continueInline : Option Bool
  apiTemperature : Int
deriving DecidableEq

/-- `updateVSConfig` (extension.ts lines 21–35): reads each option with a
JS `|| default`, except `response preview` and `continue inline`, which are
stored as read.  `embedModel` reads the `"model"` key, as in the source. -/
def updateVSConfig (c : HostConfig) : Snapshot where
  apiEndpoint := jsOrStr c.endpoint []
  apiModel := jsOrStr c.model []
  apiMessageHeader := jsOrStr c.messageHeader []
  embedModel := jsOrStr c.model []
  numPredict := jsOrNum c.maxTokensPredicted 0
  promptWindowSize := jsOrNum c.promptWindowSize 0
  completionKeys := jsOrStr c.completionKeys " ".data
  responsePreview := c.responsePreview
  responsePreviewMaxTokens := jsOrNum c.previewMaxTokens 0
  responsePreviewDelay := jsOrNum c.previewDelay 0
  continueInline := c.continueInline
  apiTemperature := jsOrNum c.temperature 0

/-- Host storage with every recognized option absent. -/
def emptyHostConfig : HostConfig :=
  ⟨none, none, none, none, none, none, none, none, none, none, none⟩

/-! ## Header substitution (`messageHeaderSub`, extension.ts lines 44–50) -/

/-- The literal placeholder `{LANG}`. -/
def langPH : JSStr := "\x7bLANG\x7d".data

/-- The literal placeholder `{FILE_NAME}`. -/
def filePH : JSStr := "\x7bFILE_NAME\x7d".data

/-- The literal placeholder `{PROJECT_NAME}`. -/
def projPH : JSStr := "\x7bPROJECT_NAME\x7d".data

/-- `messageHeaderSub` (extension.ts lines 44–50): three successive JS
`replace` calls, each replacing the first occurrence of its placeholder;
the workspace name falls back to `"Untitled"` when undefined or empty. -/
def messageHeaderSub (apiMessageHeader languageId fileName : JSStr)
    (workspaceName : Option JSStr) : JSStr :=
  replaceFirst projPH (jsOrStr workspaceName "Untitled".data)
    (replaceFirst filePH fileName
      (replaceFirst langPH languageId apiMessageHeader))

/-! ## Error reporting (`handleError`, extension.ts lines 54–68) -/

/-- The JS error object as consumed by `handleError`: a possibly
undefined `code` and a `message`. -/
structure JsError where
  code : Option JSStr
  message : JSStr
deriving DecidableEq

/-- The hint text shown for connection-refused failures. -/
def ecHint : JSStr := "ECONNREFUSED — Ollama is likely not running".data

/-- The hint text shown for rejected-request failures. -/
def brHint : JSStr := "ERR_BAD_REQUEST — Settings are likely misconfigured".data

/-- The fixed notification preamble. -/
def errHeader : JSStr := "Ollama Autocoder encountered an error: ".data

/-- `(error_response != "" ? ": " : "")` from the source. -/
def errSep (msg : JSStr) : JSStr := if msg = [] then [] else ": ".data

/-- `handleError` (extension.ts lines 54–68): returns the user-visible
notification text, or `none` when the handler returns early
(`ERR_CANCELED`).  The reason is the raw code (or empty when the code is
falsy), overridden with a hint for `ECONNREFUSED` and `ERR_BAD_REQUEST`. -/
def handleError (err : JsError) : Option JSStr :=
  if err.code = some "ERR_CANCELED".data then none
  else
    let error_reason : JSStr :=
      if err.code = some "ECONNREFUSED".data then ecHint
      else if err.code = some "ERR_BAD_REQUEST".data then brHint
      else jsOrStr err.code []
    some (errHeader ++ error_reason ++ errSep err.message ++ err.message)

/-! ## Prompt window clipping and prompt assembly
(extension.ts lines 96–101 and 228–230) -/

/-- `prompt.substring(Math.max(0, prompt.length - promptWindowSize),
prompt.length)` : keep the trailing `w` characters of the text before the
cursor. -/
def clipPrompt (beforeCursor : JSStr) (w : Nat) : JSStr :=
  beforeCursor.drop (max 0 ((beforeCursor.length : Int) - (w : Int))).toNat

/-- `createEmbeddings` (extension.ts lines 71–88): the store receives
`response.embeddings` from `ollama.embed` — one numeric vector per input
document.  The document TEXTS are not retained; `embedOf` stands for the
embedding model.  -/
def createEmbeddings (fileContents : List JSStr) (embedOf : JSStr → List Int) :
    List (List Int) :=
  fileContents.map embedOf

/-- `embeddings.map(embedding => embedding.text).join("\n")`
(extension.ts line 100): each store entry is a bare numeric vector, so the
JS property access `embedding.text` yields `undefined`, which
`Array.prototype.join` renders as the empty string. -/
def contextOfEmbeddings (embeddings : List (List Int)) : JSStr :=
  joinNl (embeddings.map (fun _ => ([] : JSStr)))

/-- The streaming-completion prompt (extension.ts lines 96–101):
`messageHeaderSub(document) + context + "\n" + prompt` with the clipped
window.  The store is `none` when `createEmbeddings` has never run: the
module-level `embeddings` variable is then undefined and the property
access on line 100 throws, so no prompt is built (`none`). -/
def buildCompleteInput (store : Option (List (List Int)))
    (header beforeCursor : JSStr) (w : Nat) : Option JSStr :=
  match store with
  | none => none
  | some embeddings =>
      some (header ++ contextOfEmbeddings embeddings ++ '\n' :: clipPrompt beforeCursor w)

/-! ## Streaming Apply Loop (`autocompleteCommand`, extension.ts
lines 91–208) -/

/-- An editor position (line, character), as in `vscode.Position`. -/
structure Pos where
  line : Nat
  character : Nat
deriving DecidableEq

/-- A recorded document edit: `edit.insert(document.uri, position, text)`. -/
abbrev Edit := Pos × JSStr

/-- The state of one streaming request: the Cursor Tracker
(`currentPosition`), the live editor selection end, whether the
Cancellation Signal has fired, and the edits applied so far. -/
structure LoopState where
  currentPosition : Pos
  selEnd : Pos
  cancelled : Bool
  edits : List Edit
deriving DecidableEq

/-- One stream event: an optional user move of the live selection end
arriving before the token, and the token's `response` fragment. -/
abbrev StreamEvent := Option Pos × JSStr

/-- The tracker-position recomputation (extension.ts lines 167–171):
`completionLines = completion.split("\n")`;
new line = `line + completionLines.length - 1`;
new character = `(completionLines.length > 1 ? 0 : character) +
completionLines[completionLines.length - 1].length`. -/
def nextPosition (cur : Pos) (completion : JSStr) : Pos :=
  let completionLines := splitNl completion
  { line := cur.line + completionLines.length - 1
    character := (if 1 < completionLines.length then 0 else cur.character)
      + (completionLines.getLastD []).length }

/-- One `'data'` event of the streaming response (extension.ts
lines 145–183): first the stale-stream check against the live selection
end, then the empty-fragment skip, then the edit, the tracker update and
the selection move. -/
def streamStep (st : LoopState) (mv : Option Pos) (completion : JSStr) : LoopState :=
  let sel := mv.getD st.selEnd
  if sel ≠ st.currentPosition then
    { st with selEnd := sel, cancelled := true }
  else if completion = [] then
    { st with selEnd := sel }
  else
    let newPos := nextPosition st.currentPosition completion
    { st with
      currentPosition := newPos
      selEnd := newPos
      edits := st.edits ++ [(st.currentPosition, completion)] }

/-- The apply loop over the incoming events; once the Cancellation Signal
has fired the HTTP stream is aborted and no further `'data'` event is
delivered. -/
def runStream (st : LoopState) : List StreamEvent → LoopState
  | [] => st
  | e :: rest => if st.cancelled then st else runStream (streamStep st e.1 e.2) rest

/-- Demo start state for the spec's worked example: tracker and live
selection both at (line 0, col 5). -/
def startState : LoopState := ⟨⟨0, 5⟩, ⟨0, 5⟩, false, []⟩

/-- The spec's worked example token sequence with no user movement. -/
def demoEvents : List StreamEvent :=
  [(none, "ab".data), (none, "\nc".data), (none, "".data)]

/-! ## Exactly-once termination (`finished`, extension.ts lines 114–123
and 185–196) -/

/-- The independent sources wired onto the single `cancelPost` callback. -/
inductive CancelSource
  | progressUI
  | hostToken
  | docClose
deriving DecidableEq

/-- An event reaching the termination wiring: the transport's
end-of-stream, or the Cancellation Signal fired from some source. -/
inductive FinishEvent
  | endOfStream
  | cancelSignal (src : CancelSource)
deriving DecidableEq

/-- Termination state: whether the axios cancel token has fired (it is
single-fire), the `finished` promise (`none` = pending, `some v` =
resolved with `v`; a JS promise resolves at most once), and whether the
"Ollama completion finished." message was reported. -/
structure FinishState where
  cancelRequested : Bool
  resolved : Option Bool
  messageReported : Bool
deriving DecidableEq

/-- The state before any event. -/
def initFinishState : FinishState := ⟨false, none, false⟩

/-- Resolving a promise: the first resolution wins, later ones are no-ops. -/
def resolveOnce (r : Option Bool) (v : Bool) : Option Bool :=
  match r with
  | some w => some w
  | none => some v

/-- One termination event (extension.ts lines 185–194): `'end'` reports
the completion message and resolves with `true`; a cancel fires the
single-fire axios token, which resolves with `false` via
`axiosCancelToken.promise.finally`.  Once the token has fired the
connection is aborted, so later events are no-ops. -/
def finishStep (st : FinishState) : FinishEvent → FinishState
  | .endOfStream =>
      if st.cancelRequested then st
      else { st with messageReported := true, resolved := resolveOnce st.resolved true }
  | .cancelSignal _ =>
      if st.cancelRequested then st
      else { st with cancelRequested := true, resolved := resolveOnce st.resolved false }

/-- Running the termination wiring over an event sequence. -/
def finishRun (evs : List FinishEvent) : FinishState :=
  evs.foldl finishStep initFinishState

/-- The number of times the `finished` promise transitions from pending to
resolved along an event sequence. -/
def resolveCount : FinishState → List FinishEvent → Nat
  | _, [] => 0
  | st, e :: evs =>
      (if st.resolved = none ∧ ¬ (finishStep st e).resolved = none then 1 else 0)
        + resolveCount (finishStep st e) evs

/-- Whether an event is the normal end-of-stream. -/
def isEndEvent : FinishEvent → Bool
  | .endOfStream => true
  | .cancelSignal _ => false

/-! ## Completion Provider Adapter (`provideCompletionItems`,
extension.ts lines 211–272) -/

/-- A completion item's insert text: either the initial
`SnippetString` placeholder or a plain string. -/
inductive ItemInsertText
  | snippet (s : JSStr)
  | plain (s : JSStr)
deriving DecidableEq

/-- The `vscode.CompletionItem` fields this code touches. -/
structure CompletionItem where
  label : JSStr
  insertText : ItemInsertText
  command : Option JSStr
  documentation : Option JSStr
deriving DecidableEq

/-- The initial snippet placeholder `${1:}`. -/
def snippetPlaceholder : JSStr := "$\x7b1:\x7d".data

/-- The item documentation text. -/
def docMarkdown : JSStr := "Press `Enter` to get an autocompletion from Ollama".data

/-- The follow-up command id attached to the item. -/
def autocompleteCmd : JSStr := "squeel-autocoder.autocomplete".data

/-- `provideCompletionItems` (extension.ts lines 211–272), with the
network abstracted: `rp`/`ci` are the snapshot's `responsePreview` and
`continueInline`; `cancelRequested` is the token state after the preview
delay; `previewResponse` is the successful preview response body.  When
cancelled the bare placeholder item is returned; otherwise, on a preview
whose trimmed response is non-empty, label and insert text become the
`trimStart`-ed response; the follow-up command is attached iff
`continueInline || !responsePreview`. -/
def provideCompletionItems (rp ci : Option Bool) (cancelRequested : Bool)
    (previewResponse : JSStr) : List CompletionItem :=
  let item : CompletionItem :=
    { label := "Autocomplete with Ollama".data
      insertText := .snippet snippetPlaceholder
      command := none
      documentation := none }
  if cancelRequested then [item]
  else
    let item1 :=
      if jsTruthy rp = true ∧ jsTrim previewResponse ≠ [] then
        { item with
          label := jsTrimStart previewResponse
          insertText := .plain (jsTrimStart previewResponse) }
      else item
    let item2 := { item1 with documentation := some docMarkdown }
    let item3 :=
      if jsTruthy ci = true ∨ jsTruthy rp = false then
        { item2 with command := some autocompleteCmd }
      else item2
    [item3]

/-! ## Chat panel (second source document, `ollama.chat` call) -/

/-- One chat message `{ role, content }`. -/
structure ChatMessage where
  role : JSStr
  content : JSStr
deriving DecidableEq

/-- The request the webview handler sends to `ollama.chat`. -/
structure ChatRequest where
  model : JSStr
  messages : List ChatMessage
  stream : Bool
deriving DecidableEq

/-- The chat request built by the webview `"ask"` handler: the model name
is the hardcoded literal.  The `Snapshot` argument stands for the ambient
process configuration, which the handler never reads — exactly as in the
source, where the chat module consults no configuration at all. -/
def chatRequestOf (snapshot : Snapshot) (userPrompt : JSStr) : ChatRequest :=
  { model := "deepseek-r1:8b".data
    messages := [{ role := "user".data, content := userPrompt }]
    stream := true }

/-! ## Helper lemmas -/

theorem leads_self_append (l v : JSStr) : leads l (l ++ v) = true := by
  induction l with
  | nil => rfl
  | cons c cs ih => simp [leads, ih]

theorem leads_head_ne {a b : Char} (ps ss : JSStr) (h : a ≠ b) :
    leads (a :: ps) (b :: ss) = false := by
  simp [leads, h]

theorem replaceFirst_lbrace (pt rep p t : JSStr) (hp : lbrace ∉ p) :
    replaceFirst (lbrace :: pt) rep (p ++ (lbrace :: pt) ++ t) = p ++ rep ++ t := by
  induction p with
  | nil =>
      simp only [List.nil_append]
      show replaceFirst (lbrace :: pt) rep (lbrace :: (pt ++ t)) = rep ++ t
      rw [replaceFirst]
      have hl : leads (lbrace :: pt) (lbrace :: (pt ++ t)) = true :=
        leads_self_append (lbrace :: pt) t
      rw [if_pos hl]
      show rep ++ ((lbrace :: pt) ++ t).drop (lbrace :: pt).length = rep ++ t
      rw [List.drop_left]
  | cons c p ih =>
      have hc : lbrace ≠ c := by
        intro h
        exact hp (h ▸ List.mem_cons_self c p)
      have hp' : lbrace ∉ p := fun h => hp (List.mem_cons_of_mem c h)
      show replaceFirst (lbrace :: pt) rep (c :: (p ++ (lbrace :: pt) ++ t))
          = c :: (p ++ rep ++ t)
      rw [replaceFirst, if_neg]
      · rw [ih hp']
      · rw [leads_head_ne _ _ hc]
        simp

theorem occursIn_mem (pt : JSStr) (s : JSStr) (h : occursIn (lbrace :: pt) s = true) :
    lbrace ∈ s := by
  induction s with
  | nil => simp [occursIn, List.isEmpty] at h
  | cons c cs ih =>
      rw [occursIn, Bool.or_eq_true] at h
      rcases h with h | h
      · rw [leads, Bool.and_eq_true, beq_iff_eq] at h
        exact h.1 ▸ List.mem_cons_self c cs
      · exact List.mem_cons_of_mem c (ih h)

theorem occursIn_eq_false (pt : JSStr) (s : JSStr) (h : lbrace ∉ s) :
    occursIn (lbrace :: pt) s = false := by
  cases hoc : occursIn (lbrace :: pt) s with
  | false => rfl
  | true => exact absurd (occursIn_mem pt s hoc) h

theorem occursIn_of_parts (pat u v : JSStr) : occursIn pat (u ++ pat ++ v) = true := by
  induction u with
  | nil =>
      cases pat with
      | nil => cases v <;> rfl
      | cons c cs =>
          show occursIn (c :: cs) ((c :: cs) ++ v) = true
          rw [List.cons_append, occursIn, ← List.cons_append, leads_self_append]
          rfl
  | cons c u ih =>
      show occursIn pat (c :: (u ++ pat ++ v)) = true
      rw [occursIn, ih, Bool.or_true]

theorem splitNl_ne_nil (l : JSStr) : splitNl l ≠ [] := by
  cases l with
  | nil => simp [splitNl]
  | cons c cs =>
      rw [splitNl]
      split <;> simp

theorem splitNl_eq_single (l : JSStr) (h : '\n' ∉ l) : splitNl l = [l] := by
  induction l with
  | nil => rfl
  | cons c cs ih =>
      have hc : c ≠ '\n' := fun hcc => h (hcc ▸ List.mem_cons_self c cs)
      have hcs : '\n' ∉ cs := fun hm => h (List.mem_cons_of_mem c hm)
      rw [splitNl]
      simp only [if_neg hc, ih hcs]
      rfl

theorem splitNl_length (l : JSStr) : (splitNl l).length = l.count '\n' + 1 := by
  induction l with
  | nil => rfl
  | cons c cs ih =>
      obtain ⟨h, t, hr⟩ := List.exists_cons_of_ne_nil (splitNl_ne_nil cs)
      rw [splitNl]
      by_cases hc : c = '\n'
      · simp only [if_pos hc, List.length_cons, ih, List.count_cons]
        simp [hc]
      · simp only [if_neg hc, hr, List.length_cons, List.headD, List.tail]
        rw [hr] at ih
        simp only [List.length_cons] at ih
        simp [List.count_cons, hc, ← ih]

theorem afterLastNl_of_not_mem (l : JSStr) (h : '\n' ∉ l) : afterLastNl l = l := by
  cases l with
  | nil => rfl
  | cons c cs =>
      have hc : c ≠ '\n' := fun hcc => h (hcc ▸ List.mem_cons_self c cs)
      have hcs : '\n' ∉ cs := fun hm => h (List.mem_cons_of_mem c hm)
      rw [afterLastNl, if_neg hcs, if_neg hc]

theorem lastD_cons {α : Type} (x : α) (l : List α) (a b : α) (h : l ≠ []) :
    (x :: l).getLastD a = l.getLastD b := by
  cases l with
  | nil => exact absurd rfl h
  | cons y ys => rfl

theorem splitNl_getLast (l : JSStr) : (splitNl l).getLastD [] = afterLastNl l := by
  induction l with
  | nil => rfl
  | cons c cs ih =>
      obtain ⟨h, t, hr⟩ := List.exists_cons_of_ne_nil (splitNl_ne_nil cs)
      rw [splitNl]
      by_cases hc : c = '\n'
      · rw [if_pos hc, lastD_cons _ _ _ ([] : JSStr) (hr ▸ List.cons_ne_nil h t), ih]
        rw [afterLastNl]
        by_cases hm : '\n' ∈ cs
        · rw [if_pos hm]
        · rw [if_neg hm, if_pos hc, afterLastNl_of_not_mem cs hm]
      · rw [if_neg hc, hr]
        simp only [List.headD, List.tail]
        cases t with
        | nil =>
            have hcount : cs.count '\n' = 0 := by
              have := splitNl_length cs
              rw [hr] at this
              simpa using this
            have hm : '\n' ∉ cs := by
              rwa [← List.count_eq_zero]
            have hcs : h = cs := by
              have := splitNl_eq_single cs hm
              rw [hr] at this
              simpa using this
            rw [afterLastNl, if_neg hm, if_neg hc, hcs]
            rfl
        | cons t0 ts =>
            have hm : '\n' ∈ cs := by
              by_contra hm
              have := splitNl_eq_single cs hm
              rw [hr] at this
              simp at this
            rw [afterLastNl, if_pos hm, ← ih, hr,
              lastD_cons (c :: h) (t0 :: ts) ([] : JSStr) h (List.cons_ne_nil t0 ts)]
            exact (lastD_cons h (t0 :: ts) ([] : JSStr) h (List.cons_ne_nil t0 ts)).symm

theorem runStream_of_cancelled (st : LoopState) (evs : List StreamEvent)
    (h : st.cancelled = true) : runStream st evs = st := by
  cases evs with
  | nil => rfl
  | cons e rest => rw [runStream, if_pos h]

theorem finishStep_frozen (st : FinishState) (e : FinishEvent)
    (h : st.cancelRequested = true) : finishStep st e = st := by
  cases e <;> simp [finishStep, h]

theorem finishRun_frozen (evs : List FinishEvent) (st : FinishState)
    (h : st.cancelRequested = true) :
    evs.foldl finishStep st = st ∧ resolveCount st evs = 0 := by
  induction evs with
  | nil => exact ⟨rfl, rfl⟩
  | cons e evs ih =>
      rw [List.foldl_cons, resolveCount, finishStep_frozen st e h]
      obtain ⟨h1, h2⟩ := ih
      refine ⟨h1, ?_⟩
      rw [h2]
      simp

theorem finishStep_resolved (st : FinishState) (e : FinishEvent) (v : Bool)
    (h : st.resolved = some v) : (finishStep st e).resolved = some v := by
  cases e <;> simp only [finishStep] <;> split <;> simp [resolveOnce, h]

theorem finishStep_msg (st : FinishState) (e : FinishEvent)
    (h : st.messageReported = true) : (finishStep st e).messageReported = true := by
  cases e <;> simp only [finishStep] <;> split <;> simp [h]

theorem finishRun_resolved (evs : List FinishEvent) (st : FinishState) (v : Bool)
    (h : st.resolved = some v) :
    (evs.foldl finishStep st).resolved = some v ∧ resolveCount st evs = 0 ∧
      (st.messageReported = true → (evs.foldl finishStep st).messageReported = true) := by
  induction evs generalizing st with
  | nil => exact ⟨h, rfl, fun hm => hm⟩
  | cons e evs ih =>
      rw [List.foldl_cons, resolveCount]
      obtain ⟨h1, h2, h3⟩ := ih (finishStep st e) (finishStep_resolved st e v h)
      refine ⟨h1, ?_, fun hm => h3 (finishStep_msg st e hm)⟩
      have hcond : ¬ (st.resolved = none ∧ ¬ (finishStep st e).resolved = none) := by
        rintro ⟨hc, -⟩
        rw [h] at hc
        exact Option.noConfusion hc
      rw [h2, if_neg hcond]

/-! ## Claim theorems -/

/-- Claim C1: stale-stream detection in the Streaming Apply Loop — if the
live editor selection's end position differs from the Cursor Tracker's
current position before a token is applied, the loop fires the
Cancellation Signal, applies no edit for that token or any later token,
and terminates in the cancelled state with the tracker unmoved. -/
theorem stale_stream_cancels (st : LoopState) (mv : Option Pos) (tok : JSStr)
    (rest : List StreamEvent) (hc : st.cancelled = false)
    (hsel : mv.getD st.selEnd ≠ st.currentPosition) :
    (runStream st ((mv, tok) :: rest)).cancelled = true ∧
    (runStream st ((mv, tok) :: rest)).edits = st.edits ∧
    (runStream st ((mv, tok) :: rest)).currentPosition = st.currentPosition := by
  have h1 : runStream st ((mv, tok) :: rest)
      = runStream (streamStep st mv tok) rest := by
    rw [runStream, if_neg (by rw [hc]; exact Bool.false_ne_true)]
  have h2 : streamStep st mv tok
      = { st with selEnd := mv.getD st.selEnd, cancelled := true } := by
    rw [streamStep, if_pos hsel]
  rw [h1, h2, runStream_of_cancelled _ rest rfl]
  exact ⟨rfl, rfl, rfl⟩

/-- Witness for C1: from tracker (0,5) with the live selection moved to
(2,0), the token "ab" and the following token are dropped and the loop
ends cancelled with no edits. -/
theorem stale_stream_cancels_witness :
    (runStream ⟨⟨0, 5⟩, ⟨0, 5⟩, false, []⟩
      [((some ⟨2, 0⟩ : Option Pos), "ab".data), (none, "cd".data)]).cancelled = true ∧
    (runStream ⟨⟨0, 5⟩, ⟨0, 5⟩, false, []⟩
      [((some ⟨2, 0⟩ : Option Pos), "ab".data), (none, "cd".data)]).edits = [] ∧
    (runStream ⟨⟨0, 5⟩, ⟨0, 5⟩, false, []⟩
      [((some ⟨2, 0⟩ : Option Pos), "ab".data), (none, "cd".data)]).currentPosition = ⟨0, 5⟩ :=
  stale_stream_cancels ⟨⟨0, 5⟩, ⟨0, 5⟩, false, []⟩ (some ⟨2, 0⟩) "ab".data
    [(none, "cd".data)] rfl (by decide)

/-- Claim C2: the tracker update — a fragment without newline advances the
column by its length; one with newlines advances the line by the newline
count and sets the column to the length of the text after the last
newline; an applied fragment records exactly one edit at the old tracker
position; an empty fragment produces no edit and leaves the tracker
unchanged; and the spec's worked example ["ab", "\nc", ""] from (0,5)
ends at tracker (1,1) with exactly two edits. -/
theorem tracker_update (line col : Nat) (frag : JSStr) (st : LoopState)
    (mv : Option Pos) :
    ('\n' ∉ frag → nextPosition ⟨line, col⟩ frag = ⟨line, col + frag.length⟩) ∧
    ('\n' ∈ frag →
      nextPosition ⟨line, col⟩ frag = ⟨line + frag.count '\n', (afterLastNl frag).length⟩) ∧
    (mv.getD st.selEnd = st.currentPosition → frag ≠ [] →
      streamStep st mv frag =
        { st with
          currentPosition := nextPosition st.currentPosition frag
          selEnd := nextPosition st.currentPosition frag
          edits := st.edits ++ [(st.currentPosition, frag)] }) ∧
    (mv.getD st.selEnd = st.currentPosition →
      streamStep st mv [] = { st with selEnd := mv.getD st.selEnd }) ∧
    (runStream startState demoEvents).currentPosition = ⟨1, 1⟩ ∧
    (runStream startState demoEvents).edits =
      [(⟨0, 5⟩, "ab".data), (⟨0, 7⟩, "\nc".data)] := by
  refine ⟨?_, ?_, ?_, ?_, by decide, by decide⟩
  · intro h
    rw [nextPosition]
    simp only [splitNl_eq_single frag h, List.length_cons, List.length_nil]
    norm_num
  · intro h
    have hcount : 0 < frag.count '\n' := List.count_pos_iff.mpr h
    rw [nextPosition]
    simp only [splitNl_length, splitNl_getLast, Pos.mk.injEq]
    rw [if_pos (show 1 < frag.count '\n' + 1 by omega)]
    exact ⟨by omega, by omega⟩
  · intro hsel hfrag
    rw [streamStep, if_neg (by rw [hsel]; exact fun hne => hne rfl), if_neg hfrag]
  · intro hsel
    rw [streamStep, if_neg (by rw [hsel]; exact fun hne => hne rfl), if_pos rfl]

/-- Witness for C2: the tracker formulas evaluated at the worked example's
two non-empty fragments, and the empty fragment at the start state. -/
theorem tracker_update_witness :
    nextPosition ⟨0, 5⟩ "ab".data = ⟨0, 7⟩ ∧
    nextPosition ⟨0, 7⟩ "\nc".data = ⟨1, 1⟩ ∧
    streamStep startState none [] = { startState with selEnd := startState.selEnd } := by
  refine ⟨?_, ?_, ?_⟩
  · have h := (tracker_update 0 5 "ab".data startState none).1 (by decide)
    rw [h]
    decide
  · have h := (tracker_update 0 7 "\nc".data startState none).2.1 (by decide)
    rw [h]
    decide
  · exact (tracker_update 0 5 "ab".data startState none).2.2.2.1 rfl

/-- Claim C3: exactly-once termination — over any nonempty sequence of
termination events (end-of-stream, or the Cancellation Signal fired from
any of the progress UI, the host token or a document close, any number of
times), the `finished` promise resolves exactly once; it resolves `true`
with the completion message reported iff the first event is the normal
end-of-stream, and `false` without the message otherwise. -/
theorem finished_exactly_once (e : FinishEvent) (evs : List FinishEvent) :
    resolveCount initFinishState (e :: evs) = 1 ∧
    (finishRun (e :: evs)).resolved = some (isEndEvent e) ∧
    (finishRun (e :: evs)).messageReported = isEndEvent e := by
  cases e with
  | endOfStream =>
      have h1 : finishStep initFinishState .endOfStream = ⟨false, some true, true⟩ := rfl
      obtain ⟨ha, hb, hc⟩ :=
        finishRun_resolved evs ⟨false, some true, true⟩ true rfl
      refine ⟨?_, ?_, ?_⟩
      · rw [resolveCount, h1, hb]
        simp [initFinishState]
      · rw [finishRun, List.foldl_cons, h1]
        exact ha
      · rw [finishRun, List.foldl_cons, h1]
        exact hc rfl
  | cancelSignal src =>
      have h1 : finishStep initFinishState (.cancelSignal src) = ⟨true, some false, false⟩ := rfl
      obtain ⟨ha, hb⟩ := finishRun_frozen evs ⟨true, some false, false⟩ rfl
      refine ⟨?_, ?_, ?_⟩
      · rw [resolveCount, h1, hb]
        simp [initFinishState]
      · rw [finishRun, List.foldl_cons, h1, ha]
        rfl
      · rw [finishRun, List.foldl_cons, h1, ha]
        rfl

/-- Counterexample to claim C4 as stated: `response preview` and
`continue inline` are recognized configuration options, yet with every
option absent from host storage the refreshed snapshot stores no default
for them — they remain undefined (`none`). -/
theorem config_defaults_counterexample :
    (updateVSConfig emptyHostConfig).responsePreview = none ∧
    (updateVSConfig emptyHostConfig).continueInline = none :=
  ⟨rfl, rfl⟩

/-- Claim C4 (amended): every recognized string or numeric option absent
from host storage is stored with its documented default (empty string,
zero, or `" "` for the trigger-key set); the two boolean options are
stored as read (so they stay undefined when absent); hence every snapshot
field consulted while building or issuing a request is defined. -/
theorem config_defaults_amended (c : HostConfig) :
    (c.endpoint = none → (updateVSConfig c).apiEndpoint = []) ∧
    (c.model = none → (updateVSConfig c).apiModel = [] ∧ (updateVSConfig c).embedModel = []) ∧
    (c.messageHeader = none → (updateVSConfig c).apiMessageHeader = []) ∧
    (c.maxTokensPredicted = none → (updateVSConfig c).numPredict = 0) ∧
    (c.promptWindowSize = none → (updateVSConfig c).promptWindowSize = 0) ∧
    (c.completionKeys = none → (updateVSConfig c).completionKeys = " ".data) ∧
    (c.previewMaxTokens = none → (updateVSConfig c).responsePreviewMaxTokens = 0) ∧
    (c.previewDelay = none → (updateVSConfig c).responsePreviewDelay = 0) ∧
    (c.temperature = none → (updateVSConfig c).apiTemperature = 0) ∧
    (updateVSConfig c).responsePreview = c.responsePreview ∧
    (updateVSConfig c).continueInline = c.continueInline := by
  refine ⟨?_, ?_, ?_, ?_, ?_, ?_, ?_, ?_, ?_, rfl, rfl⟩ <;>
    intro h <;> simp [updateVSConfig, jsOrStr, jsOrNum, h]

/-- Witness for C4 (amended): with empty storage, the string, trigger-key
and numeric defaults are the documented ones. -/
theorem config_defaults_amended_witness :
    (updateVSConfig emptyHostConfig).apiEndpoint = [] ∧
    (updateVSConfig emptyHostConfig).completionKeys = " ".data ∧
    (updateVSConfig emptyHostConfig).numPredict = 0 :=
  ⟨(config_defaults_amended emptyHostConfig).1 rfl,
   (config_defaults_amended emptyHostConfig).2.2.2.2.2.1 rfl,
   (config_defaults_amended emptyHostConfig).2.2.2.1 rfl⟩

/-- Counterexample to claim C5 as stated: a template that contains all
three placeholders (with `{LANG}` twice) still contains the literal
`{LANG}` after substitution, because JS `replace` with a string pattern
replaces only the first occurrence. -/
theorem header_sub_counterexample :
    occursIn langPH "\x7bLANG\x7d \x7bLANG\x7d \x7bFILE_NAME\x7d \x7bPROJECT_NAME\x7d".data = true ∧
    occursIn filePH "\x7bLANG\x7d \x7bLANG\x7d \x7bFILE_NAME\x7d \x7bPROJECT_NAME\x7d".data = true ∧
    occursIn projPH "\x7bLANG\x7d \x7bLANG\x7d \x7bFILE_NAME\x7d \x7bPROJECT_NAME\x7d".data = true ∧
    occursIn langPH
      (messageHeaderSub "\x7bLANG\x7d \x7bLANG\x7d \x7bFILE_NAME\x7d \x7bPROJECT_NAME\x7d".data
        "sql".data "f".data (some "p".data)) = true := by
  decide

/-- Claim C5 (amended): substitution replaces the FIRST occurrence of each
placeholder; for a template containing each placeholder exactly once (as
segments `A{LANG}B{FILE_NAME}C{PROJECT_NAME}D` whose segments and
substituted values — the language id, the file name, and the workspace
name with its `"Untitled"` fallback when the workspace has no name —
contain no `{` character), the substituted header is the template with the
placeholders replaced by those values, and contains none of the three
literal placeholder tokens.  The workspace name is an arbitrary
possibly-undefined string; when it is undefined the substituted value is
`"Untitled"`. -/
theorem header_sub_amended (A B C D lg fn : JSStr) (wn : Option JSStr)
    (hA : lbrace ∉ A) (hB : lbrace ∉ B) (hC : lbrace ∉ C) (hD : lbrace ∉ D)
    (hlg : lbrace ∉ lg) (hfn : lbrace ∉ fn)
    (hwn : lbrace ∉ jsOrStr wn "Untitled".data) :
    messageHeaderSub (A ++ langPH ++ B ++ filePH ++ C ++ projPH ++ D) lg fn wn
      = A ++ lg ++ B ++ fn ++ C ++ jsOrStr wn "Untitled".data ++ D ∧
    (wn = none →
      messageHeaderSub (A ++ langPH ++ B ++ filePH ++ C ++ projPH ++ D) lg fn none
        = A ++ lg ++ B ++ fn ++ C ++ "Untitled".data ++ D) ∧
    occursIn langPH
      (messageHeaderSub (A ++ langPH ++ B ++ filePH ++ C ++ projPH ++ D) lg fn wn) = false ∧
    occursIn filePH
      (messageHeaderSub (A ++ langPH ++ B ++ filePH ++ C ++ projPH ++ D) lg fn wn) = false ∧
    occursIn projPH
      (messageHeaderSub (A ++ langPH ++ B ++ filePH ++ C ++ projPH ++ D) lg fn wn) = false := by
  have hL : langPH = lbrace :: "LANG\x7d".data := by decide
  have hF : filePH = lbrace :: "FILE_NAME\x7d".data := by decide
  have hP : projPH = lbrace :: "PROJECT_NAME\x7d".data := by decide
  have hpAB : lbrace ∉ A ++ lg ++ B := by simp [List.mem_append, hA, hlg, hB]
  have hpABC : lbrace ∉ A ++ lg ++ B ++ fn ++ C := by
    simp [List.mem_append, hA, hlg, hB, hfn, hC]
  have s1 : replaceFirst langPH lg (A ++ langPH ++ B ++ filePH ++ C ++ projPH ++ D)
      = A ++ lg ++ (B ++ filePH ++ C ++ projPH ++ D) := by
    have e : A ++ langPH ++ B ++ filePH ++ C ++ projPH ++ D
        = A ++ langPH ++ (B ++ filePH ++ C ++ projPH ++ D) := by
      simp [List.append_assoc]
    rw [e, hL]
    exact replaceFirst_lbrace _ lg A (B ++ filePH ++ C ++ projPH ++ D) hA
  have s2 : replaceFirst filePH fn (A ++ lg ++ (B ++ filePH ++ C ++ projPH ++ D))
      = A ++ lg ++ B ++ fn ++ (C ++ projPH ++ D) := by
    have e : A ++ lg ++ (B ++ filePH ++ C ++ projPH ++ D)
        = A ++ lg ++ B ++ filePH ++ (C ++ projPH ++ D) := by
      simp [List.append_assoc]
    rw [e, hF]
    exact replaceFirst_lbrace _ fn (A ++ lg ++ B) (C ++ projPH ++ D) hpAB
  have s3 : ∀ pv : JSStr, lbrace ∉ pv →
      replaceFirst projPH pv (A ++ lg ++ B ++ fn ++ (C ++ projPH ++ D))
        = A ++ lg ++ B ++ fn ++ C ++ pv ++ D := by
    intro pv hpv
    have e : A ++ lg ++ B ++ fn ++ (C ++ projPH ++ D)
        = A ++ lg ++ B ++ fn ++ C ++ projPH ++ D := by
      simp [List.append_assoc]
    rw [e, hP]
    exact replaceFirst_lbrace _ pv (A ++ lg ++ B ++ fn ++ C) D hpABC
  have hsub : ∀ (w : Option JSStr), lbrace ∉ jsOrStr w "Untitled".data →
      messageHeaderSub (A ++ langPH ++ B ++ filePH ++ C ++ projPH ++ D) lg fn w
        = A ++ lg ++ B ++ fn ++ C ++ jsOrStr w "Untitled".data ++ D := by
    intro w hw
    rw [messageHeaderSub, s1, s2, s3 (jsOrStr w "Untitled".data) hw]
  have hres := hsub wn hwn
  have hmem : lbrace ∉ A ++ lg ++ B ++ fn ++ C ++ jsOrStr wn "Untitled".data ++ D := by
    simp [List.mem_append, hA, hlg, hB, hfn, hC, hwn, hD]
  refine ⟨hres, fun hw => ?_, ?_, ?_, ?_⟩
  · exact hsub none (by decide)
  · rw [hres, hL]
    exact occursIn_eq_false _ _ hmem
  · rw [hres, hF]
    exact occursIn_eq_false _ _ hmem
  · rw [hres, hP]
    exact occursIn_eq_false _ _ hmem

/-- Witness for C5 (amended): a concrete single-occurrence template is
substituted completely, both with a defined workspace name and with the
`"Untitled"` fallback for an undefined one. -/
theorem header_sub_amended_witness :
    messageHeaderSub ("x".data ++ langPH ++ " y ".data ++ filePH ++ " z ".data ++ projPH ++ "!".data)
      "sql".data "f".data (some "p".data)
      = "x".data ++ "sql".data ++ " y ".data ++ "f".data ++ " z ".data ++ "p".data ++ "!".data ∧
    messageHeaderSub ("x".data ++ langPH ++ " y ".data ++ filePH ++ " z ".data ++ projPH ++ "!".data)
      "sql".data "f".data none
      = "x".data ++ "sql".data ++ " y ".data ++ "f".data ++ " z ".data ++ "Untitled".data ++ "!".data := by
  refine ⟨?_, ?_⟩
  · have h := (header_sub_amended "x".data " y ".data " z ".data "!".data "sql".data "f".data
      (some "p".data) (by decide) (by decide) (by decide) (by decide) (by decide) (by decide)
      (by decide)).1
    rw [h]
    decide
  · exact (header_sub_amended "x".data " y ".data " z ".data "!".data "sql".data "f".data
      none (by decide) (by decide) (by decide) (by decide) (by decide) (by decide)
      (by decide)).2.1 rfl

/-- Claim C6 (code bug): the RAG context never contains the stored
document texts.  `createEmbeddings` keeps only `response.embeddings`
(numeric vectors); `embedding.text` is therefore `undefined` for every
entry, and `join("\n")` renders it as the empty string, so the context
built from the documents "SELECT 1" and "SELECT 2" is just "\n" and the
prompt is header ++ "\n" ++ "\n" ++ window.  When no embeddings have been
created at all, the undefined store makes the property access throw, so no
prompt is built. -/
theorem rag_context_bug :
    buildCompleteInput
      (some (createEmbeddings ["SELECT 1".data, "SELECT 2".data] (fun _ => [0])))
      "H".data "P".data 100 = some "H\n\nP".data ∧
    occursIn "SELECT 1".data "H\n\nP".data = false ∧
    buildCompleteInput none "H".data "P".data 100 = none := by
  refine ⟨by decide, by decide, rfl⟩

/-- Counterexample to claim C7 as stated: a successful preview response
whose trimmed value is "SELECT * FROM t" (namely " SELECT * FROM t " with
surrounding whitespace) yields an item whose label and insert text are the
`trimStart`-ed response, which still carries the trailing space and so
does not equal the trimmed string. -/
theorem preview_item_counterexample :
    jsTrim " SELECT * FROM t ".data = "SELECT * FROM t".data ∧
    provideCompletionItems (some true) (some false) false " SELECT * FROM t ".data =
      [{ label := "SELECT * FROM t ".data
         insertText := .plain "SELECT * FROM t ".data
         command := none
         documentation := some docMarkdown }] ∧
    "SELECT * FROM t ".data ≠ "SELECT * FROM t".data := by
  refine ⟨by decide, by decide, by decide⟩

/-- Claim C7 (amended): with `responsePreview = true`,
`continueInline` falsy, no cancellation, and a successful preview response
with non-empty trim, the returned item's visible label and insert text
both equal the response with its leading whitespace removed (`trimStart`),
and no follow-up command is attached. -/
theorem preview_item_amended (ci : Option Bool) (r : JSStr)
    (hci : jsTruthy ci = false) (hr : jsTrim r ≠ []) :
    provideCompletionItems (some true) ci false r =
      [{ label := jsTrimStart r
         insertText := .plain (jsTrimStart r)
         command := none
         documentation := some docMarkdown }] := by
  have h2 : ¬ (jsTruthy ci = true ∨ jsTruthy (some true) = false) := by
    rintro (h | h)
    · rw [hci] at h
      exact Bool.false_ne_true h
    · exact absurd h (by decide)
  simp only [provideCompletionItems]
  rw [if_neg (show ¬ (false = true) from by decide),
    if_pos (show jsTruthy (some true) = true ∧ jsTrim r ≠ [] from ⟨rfl, hr⟩),
    if_neg h2]

/-- Witness for C7 (amended): the exact response "SELECT * FROM t" (no
surrounding whitespace) becomes both label and insert text, command-free. -/
theorem preview_item_amended_witness :
    provideCompletionItems (some true) (some false) false "SELECT * FROM t".data =
      [{ label := "SELECT * FROM t".data
         insertText := .plain "SELECT * FROM t".data
         command := none
         documentation := some docMarkdown }] := by
  have h := preview_item_amended (some false) "SELECT * FROM t".data (by decide) (by decide)
  rw [h]
  decide

/-- Claim C8: error classification — `ECONNREFUSED` produces a
notification containing the "Ollama is likely not running" hint,
`ERR_BAD_REQUEST` one containing "Settings are likely misconfigured",
`ERR_CANCELED` produces no notification at all, and every other error's
notification ends with its raw message. -/
theorem handleError_classification (msg : JSStr) (code : Option JSStr) :
    ((handleError ⟨some "ECONNREFUSED".data, msg⟩).isSome = true ∧
      occursIn "Ollama is likely not running".data
        ((handleError ⟨some "ECONNREFUSED".data, msg⟩).getD []) = true) ∧
    ((handleError ⟨some "ERR_BAD_REQUEST".data, msg⟩).isSome = true ∧
      occursIn "Settings are likely misconfigured".data
        ((handleError ⟨some "ERR_BAD_REQUEST".data, msg⟩).getD []) = true) ∧
    handleError ⟨some "ERR_CANCELED".data, msg⟩ = none ∧
    (code ≠ some "ERR_CANCELED".data →
      ∃ pre, handleError ⟨code, msg⟩ = some (pre ++ msg)) := by
  have hEC : handleError ⟨some "ECONNREFUSED".data, msg⟩
      = some (errHeader ++ ecHint ++ errSep msg ++ msg) := by
    simp only [handleError]
    rw [if_neg (by decide), if_pos (by decide)]
  have hBR : handleError ⟨some "ERR_BAD_REQUEST".data, msg⟩
      = some (errHeader ++ brHint ++ errSep msg ++ msg) := by
    simp only [handleError]
    rw [if_neg (by decide), if_neg (by decide), if_pos (by decide)]
  have hECsplit : ecHint = "ECONNREFUSED — ".data ++ "Ollama is likely not running".data := by
    decide
  have hBRsplit : brHint = "ERR_BAD_REQUEST — ".data ++ "Settings are likely misconfigured".data := by
    decide
  refine ⟨⟨?_, ?_⟩, ⟨?_, ?_⟩, ?_, ?_⟩
  · rw [hEC]
    rfl
  · rw [hEC]
    show occursIn "Ollama is likely not running".data
      (errHeader ++ ecHint ++ errSep msg ++ msg) = true
    rw [hECsplit]
    have h := occursIn_of_parts "Ollama is likely not running".data
      (errHeader ++ "ECONNREFUSED — ".data) (errSep msg ++ msg)
    simpa [List.append_assoc] using h
  · rw [hBR]
    rfl
  · rw [hBR]
    show occursIn "Settings are likely misconfigured".data
      (errHeader ++ brHint ++ errSep msg ++ msg) = true
    rw [hBRsplit]
    have h := occursIn_of_parts "Settings are likely misconfigured".data
      (errHeader ++ "ERR_BAD_REQUEST — ".data) (errSep msg ++ msg)
    simpa [List.append_assoc] using h
  · simp only [handleError]
    rw [if_pos (by decide)]
  · intro hne
    refine ⟨errHeader ++
      (if code = some "ECONNREFUSED".data then ecHint
       else if code = some "ERR_BAD_REQUEST".data then brHint
       else jsOrStr code []) ++ errSep msg, ?_⟩
    rw [handleError, if_neg hne]

/-- Witness for C8: an unclassified error (code ETIMEDOUT) surfaces its
raw message. -/
theorem handleError_classification_witness :
    ∃ pre, handleError ⟨some "ETIMEDOUT".data, "boom".data⟩ = some (pre ++ "boom".data) :=
  (handleError_classification "boom".data (some "ETIMEDOUT".data)).2.2.2 (by decide)

/-- Claim C9: prompt window clipping — the clipped trailing slice has
length exactly `min L W` and equals the last `min L W` characters of the
text before the cursor. -/
theorem prompt_clip_length (s : JSStr) (w : Nat) :
    (clipPrompt s w).length = min s.length w ∧
    clipPrompt s w = s.drop (s.length - min s.length w) := by
  have h : (max 0 ((s.length : Int) - (w : Int))).toNat = s.length - min s.length w := by
    omega
  constructor
  · rw [clipPrompt, h, List.length_drop]
    omega
  · rw [clipPrompt, h]

/-- Claim C10: the chat model is fixed — every chat request carries the
hardcoded model name "deepseek-r1:8b", and the request does not depend on
the configuration snapshot at all. -/
theorem chat_model_fixed (s1 s2 : Snapshot) (p : JSStr) :
    (chatRequestOf s1 p).model = "deepseek-r1:8b".data ∧
    chatRequestOf s1 p = chatRequestOf s2 p :=
  ⟨rfl, rfl⟩

end Sqlnaut



